import Mathlib

/-!
Verification of the LCG random-number-generator web application.

The repository has two JavaScript source files with the same generator and
plot code but two validator variants:
* `src/script.js` — the "deriving" variant: the modulus is computed as
  `nextPow2(count)` and the user-supplied modulus field is ignored;
* `src/unnamed/part_000` — the "fixed" (non-deriving) variant: the modulus
  is user supplied, and the validator carries the `count > 100`
  confirmation gate.

JavaScript numbers are IEEE-754 doubles.  The primary embedding below uses
exact integer (and rational) arithmetic, which coincides with the JS
behaviour whenever every intermediate value stays inside the doubles'
exact-integer range; a separate model (`jsGenerate`) reproduces the
double rounding in order to settle the numerical claim.
-/

namespace LCGSpec

/-! ## Generator (`LCGGenerator` in both source files) -/

/-- Parameters of the linear congruential generator, as stored by the
`LCGGenerator` constructor. -/
structure LCGGenerator where
  multiplier : ℤ
  increment : ℤ
  modulus : ℤ
  seed : ℤ
  deriving DecidableEq, Repr

/-- JavaScript's remainder `a % b`: truncated division remainder, whose sign
follows the dividend.  Lean's `Int.tmod` has exactly this semantics. -/
def jsRem (a b : ℤ) : ℤ := Int.tmod a b

/-- One update of the loop body
`current = (this.multiplier * current + this.increment) % this.modulus`. -/
def lcgStep (g : LCGGenerator) (x : ℤ) : ℤ :=
  jsRem (g.multiplier * x + g.increment) g.modulus

/-- The loop of `generate`: starting from `current`, perform `n` iterations,
pushing each updated `current` onto the result list. -/
def generateAux (g : LCGGenerator) (current : ℤ) : ℕ → List ℤ
  | 0 => []
  | n + 1 => lcgStep g current :: generateAux g (lcgStep g current) n

/-- Model of `LCGGenerator.generate(count)`.  The JavaScript `for` loop
`for (let i = 0; i < count; i += 1)` runs `max(count, 0)` times for an
integer `count`, which is `count.toNat` iterations. -/
def generate (g : LCGGenerator) (count : ℤ) : List ℤ :=
  generateAux g g.seed count.toNat

/-- One displayed sample: the raw LCG output together with its
normalization `raw / modulus` (exact rational arithmetic). -/
structure Sample where
  raw : ℤ
  normalized : ℚ
  deriving DecidableEq, Repr

/-- Model of `LCGGenerator.generateNormalized(count)`: generate the raw values and
pair each with `value / this.modulus`. -/
def generateNormalized (g : LCGGenerator) (count : ℤ) : List Sample :=
  (generate g count).map (fun v => ⟨v, (v : ℚ) / (g.modulus : ℚ)⟩)

/-- The mathematical recurrence of the specification:
`x 0 = seed`, `x (i+1) = (multiplier * x i + increment) mod modulus`
(with the JS remainder, which agrees with `mod` on the validated inputs). -/
def lcgSeq (g : LCGGenerator) : ℕ → ℤ
  | 0 => g.seed
  | i + 1 => lcgStep g (lcgSeq g i)

/-! ## The helper `nextPow2` (src/script.js, lines 84-88) -/

/-- Fuel-driven floor base-2 logarithm (the fuel makes the recursion
structural, so that the kernel can evaluate it on concrete inputs). -/
def log2Fuel : ℕ → ℕ → ℕ
  | 0, _ => 0
  | fuel + 1, n => if 2 ≤ n then log2Fuel fuel (n / 2) + 1 else 0

/-- Floor base-2 logarithm: the largest `k` with `2 ^ k ≤ n` (0 for
`n = 0`). -/
def floorLog2 (n : ℕ) : ℕ := log2Fuel n n

/-- Exact ceiling base-2 logarithm: the true mathematical value of
`ceil(log2 n)` for a positive integer `n` (0 for `n = 1`,
`floorLog2 (n - 1) + 1` otherwise).  The source computes
`Math.ceil(Math.log2(n))` with the implementation-approximated double
`Math.log2`, which can differ from this exact value near large powers of
two: see `nextPow2WithLog2` and the C3 counterexample at `n = 2^49 + 1`. -/
def ceilLog2 (n : ℕ) : ℕ :=
  if n ≤ 1 then 0 else floorLog2 (n - 1) + 1

/-- Model of `nextPow2(n)`: `if (!Number.isFinite(n) || n < 1) return 2;
return Math.max(2, 2 ** Math.ceil(Math.log2(n)));`.  Modelled over ℤ (the
validator only applies it to finite integers, so the `isFinite` guard has
no separate branch), with the exact ceiling logarithm `ceilLog2` as an
idealization of the floating-point pipeline; the pipeline itself is
modelled by `nextPow2WithLog2` below, and the two provably agree only on a
bounded range of counts (see the C3 theorems). -/
def nextPow2 (n : ℤ) : ℤ :=
  if n < 1 then 2 else max 2 (2 ^ ceilLog2 n.toNat)

/-- Model of the floating-point expression
`Math.max(2, 2 ** Math.ceil(Math.log2(n)))` with the double returned by
the implementation-approximated `Math.log2` supplied explicitly as its
exact rational value `l`.  `Math.ceil` on a double is exact, `2 ** k` is
exact for every relevant integer `k` (powers of two are representable),
and `Math.max` is exact; an exponent `k ≤ 0` also yields 2 through the
max (in JS `2 ** k ≤ 1 < 2` there), which `Int.toNat` reproduces. -/
def nextPow2WithLog2 (l : ℚ) (n : ℤ) : ℤ :=
  if n < 1 then 2 else max 2 (2 ^ (⌈l⌉.toNat))

/-! ## JavaScript string-to-number conversion

Both validators convert each raw text field with `Number(field)` and then
test `Number.isInteger` (the deriving variant also tests
`Number.isFinite`, which is implied by `Number.isInteger`). -/

/-- Result of JavaScript `Number(string)`: either NaN or a finite value
(held as an exact rational).  Infinities are folded into `nan`: every
validator check below treats them identically (both fail
`Number.isInteger` and `Number.isFinite`). -/
inductive JsNum where
  | nan : JsNum
  | num : ℚ → JsNum
  deriving DecidableEq, Repr

/-- Value of a decimal digit character. -/
def digitVal (c : Char) : Option ℕ :=
  if c.isDigit then some (c.toNat - 48) else none

/-- Reads a digit string (most significant first); fails on any
non-digit.  The empty list yields 0 (callers reject it where needed). -/
def natOfDigits (cs : List Char) : Option ℕ :=
  cs.foldl (fun acc c => acc.bind (fun a => (digitVal c).map (fun d => 10 * a + d)))
    (some 0)

/-- Reads an unsigned decimal literal `digits [. digits]`, `digits .` or
`. digits` as an exact rational; fails on anything else. -/
def parseUnsignedDec (cs : List Char) : Option ℚ :=
  let ip := cs.takeWhile (fun c => c ≠ '.')
  match cs.dropWhile (fun c => c ≠ '.') with
  | [] =>
    if ip.isEmpty then none else (natOfDigits ip).map (fun n => (n : ℚ))
  | _ :: fp =>
    if ip.isEmpty && fp.isEmpty then none
    else
      match natOfDigits ip, natOfDigits fp with
      | some i, some f => some ((i : ℚ) + (f : ℚ) / (10 : ℚ) ^ fp.length)
      | _, _ => none

/-- Whitespace test for trimming (ASCII whitespace; JS also trims further
Unicode space characters, which occur in no claim below). -/
def isWhitespaceChar (c : Char) : Bool :=
  c = ' ' || c = '\t' || c = '\n' || c = '\r'

/-- Removes leading and trailing whitespace from a character list. -/
def trimChars (cs : List Char) : List Char :=
  ((cs.dropWhile isWhitespaceChar).reverse.dropWhile isWhitespaceChar).reverse

/-- Modelled fragment of JavaScript `Number(string)` (ECMAScript ToNumber on
strings): whitespace is trimmed; the empty (or all-whitespace) string
converts to `0`; an optional sign followed by a decimal literal converts to
its exact value; everything else converts to NaN.  Literal forms that are
omitted here (hex/octal/binary, exponents, `Infinity`) occur in no claim
and no counterexample below. -/
def jsStringToNumber (s : String) : JsNum :=
  match trimChars s.data with
  | [] => .num 0
  | '-' :: rest =>
    match parseUnsignedDec rest with
    | some q => .num (-q)
    | none => .nan
  | '+' :: rest =>
    match parseUnsignedDec rest with
    | some q => .num q
    | none => .nan
  | cs =>
    match parseUnsignedDec cs with
    | some q => .num q
    | none => .nan

/-- JavaScript `Number.isFinite(v) && Number.isInteger(v)` (equivalently
just `Number.isInteger(v)`, since integers are finite): the value is a
finite number with denominator 1. -/
def jsIsFiniteInteger : JsNum → Bool
  | .nan => false
  | .num q => q.den == 1

/-- The integer value of a finite integral `JsNum` (0 on NaN; only used
after `jsIsFiniteInteger` has been checked). -/
def jsToInt : JsNum → ℤ
  | .nan => 0
  | .num q => q.num

/-! ## Validators -/

/-- Validated parameter record returned by `validateInputs`
(`{ ...parsed, modulus }` in the deriving variant, `parsed` in the fixed
variant). -/
structure Params where
  seed : ℤ
  multiplier : ℤ
  increment : ℤ
  modulus : ℤ
  count : ℤ
  deriving DecidableEq, Repr

/-- The distinct terminal outcomes of the two validators, one per `throw`
site (plus the user-cancellation outcome of the fixed variant). -/
inductive ValError where
  | parseError
  | rangeError
  | modulusError
  | seedRangeError
  | countError
  | userCancelled
  deriving DecidableEq, Repr

/-- Raw text fields read by the deriving variant (`src/script.js`,
`getInputValues`): the modulus field is deliberately not read. -/
structure RawFieldsDerive where
  seed : String
  multiplier : String
  increment : String
  count : String
  deriving DecidableEq, Repr

/-- Raw text fields read by the fixed variant (`src/unnamed/part_000`,
`getInputValues`), including the user-supplied modulus. -/
structure RawFieldsFixed where
  seed : String
  multiplier : String
  increment : String
  modulus : String
  count : String
  deriving DecidableEq, Repr

/-- Model of `App.validateInputs` in the deriving variant (`src/script.js`,
lines 134-167): integer check on all four fields, combined
negativity/count check, modulus derivation by `nextPow2`, then the seed
range check against the derived modulus.  (The write-back of the derived
modulus into the read-only form field is a display echo, modelled in
`DisplayState` consumers only.) -/
def validateInputsDerive (f : RawFieldsDerive) : Except ValError Params :=
  let ps := jsStringToNumber f.seed
  let pa := jsStringToNumber f.multiplier
  let pc := jsStringToNumber f.increment
  let pn := jsStringToNumber f.count
  if ¬ (jsIsFiniteInteger ps ∧ jsIsFiniteInteger pa ∧
        jsIsFiniteInteger pc ∧ jsIsFiniteInteger pn) then
    .error .parseError
  else
    let s := jsToInt ps
    let a := jsToInt pa
    let c := jsToInt pc
    let n := jsToInt pn
    if s < 0 ∨ a < 0 ∨ c < 0 ∨ n < 1 then .error .rangeError
    else
      let m := nextPow2 n
      if s < 0 ∨ s ≥ m then .error .seedRangeError
      else .ok ⟨s, a, c, m, n⟩

/-- Model of `App.validateInputs` in the fixed variant (`src/unnamed/part_000`,
lines 112-150): integer check on all five fields, then `modulus ≤ 1`,
then the seed range check, then `count ≤ 0`, then the `count > 100`
confirmation gate (`confirmAnswer` is the user's reply to
`window.confirm`; declining throws the cancellation error).  Note there is
no negativity check on `multiplier` or `increment`. -/
def validateInputsFixed (f : RawFieldsFixed) (confirmAnswer : Bool) :
    Except ValError Params :=
  let ps := jsStringToNumber f.seed
  let pa := jsStringToNumber f.multiplier
  let pc := jsStringToNumber f.increment
  let pm := jsStringToNumber f.modulus
  let pn := jsStringToNumber f.count
  if ¬ (jsIsFiniteInteger ps ∧ jsIsFiniteInteger pa ∧ jsIsFiniteInteger pc ∧
        jsIsFiniteInteger pm ∧ jsIsFiniteInteger pn) then
    .error .parseError
  else
    let s := jsToInt ps
    let a := jsToInt pa
    let c := jsToInt pc
    let m := jsToInt pm
    let n := jsToInt pn
    if m ≤ 1 then .error .modulusError
    else if s < 0 ∨ s ≥ m then .error .seedRangeError
    else if n ≤ 0 then .error .countError
    else if n > 100 ∧ ¬ confirmAnswer then .error .userCancelled
    else .ok ⟨s, a, c, m, n⟩

/-! ## Plot mapper (`ScatterPlot.plot`, identical in both variants) -/

/-- A plotted point in canvas coordinates. -/
structure PlotPoint where
  x : ℚ
  y : ℚ
  deriving DecidableEq, Repr

/-- Fixed drawing margins of `ScatterPlot.plot`:
`const padding = { left: 40, right: 20, top: 20, bottom: 30 };`. -/
def paddingLeft : ℚ := 40

/-- Right margin of the drawing region. -/
def paddingRight : ℚ := 20

/-- Top margin of the drawing region. -/
def paddingTop : ℚ := 20

/-- Bottom margin of the drawing region. -/
def paddingBottom : ℚ := 30

/-- Model of `ScatterPlot.plot(data)`: one point per sample, in index order, with
`x = padding.left + (index / Math.max(data.length - 1, 1)) * width` and
`y = padding.top + (1 - normalized) * height`, where `width` and `height`
are the canvas dimensions minus the margins; an empty data array produces
no points (`if (!data.length) return;`). -/
def plot (canvasWidth canvasHeight : ℚ) (data : List Sample) : List PlotPoint :=
  if data.isEmpty then []
  else
    let w := canvasWidth - paddingLeft - paddingRight
    let h := canvasHeight - paddingTop - paddingBottom
    data.mapIdx (fun i s =>
      ⟨paddingLeft + ((i : ℚ) / ((max (data.length - 1) 1 : ℕ) : ℚ)) * w,
       paddingTop + (1 - s.normalized) * h⟩)

/-! ## Displayed state and `App.handleSubmit` (fixed variant) -/

/-- The displayed state an external observer can see: the error region's
text, the textual results, and the plotted points. -/
structure DisplayState where
  errorMessage : String
  results : List Sample
  plotPoints : List PlotPoint
  deriving DecidableEq, Repr

/-- Error-region text per outcome, as thrown by the fixed variant
(`userCancelled` carries the message `handleSubmit` filters on). -/
def errorTextFixed : ValError → String
  | .parseError => "Todos los parámetros deben ser números enteros."
  | .rangeError => "Valores inválidos."
  | .modulusError => "El módulo debe ser un entero mayor que 1."
  | .seedRangeError => "La semilla debe cumplir 0 ≤ semilla < módulo."
  | .countError => "La cantidad de números debe ser mayor que 0."
  | .userCancelled => "Generación cancelada por el usuario."

/-- Model of `App.handleSubmit` in the fixed variant (`src/unnamed/part_000`,
lines 174-195): first blank the error region, then validate; on success
generate and display results and plot; on the cancellation error return
with no further display change; on any other error show its message and
clear results and plot. -/
def handleSubmitFixed (f : RawFieldsFixed) (confirmAnswer : Bool)
    (canvasWidth canvasHeight : ℚ) (st : DisplayState) : DisplayState :=
  let st1 : DisplayState := { st with errorMessage := "" }
  match validateInputsFixed f confirmAnswer with
  | .ok p =>
      let data := generateNormalized ⟨p.multiplier, p.increment, p.modulus, p.seed⟩ p.count
      { errorMessage := "", results := data,
        plotPoints := plot canvasWidth canvasHeight data }
  | .error .userCancelled => st1
  | .error e =>
      { errorMessage := errorTextFixed e, results := [], plotPoints := [] }

/-! ## Double-precision model of the generator arithmetic

JavaScript evaluates `(this.multiplier * current + this.increment) %
this.modulus` in IEEE-754 doubles: the product and the sum are each
rounded to the nearest double (ties to even), while the remainder of two
integer-valued doubles is exact.  For the nonnegative integer parameters
the validator accepts, this is the model below. -/

/-- Rounds `n` to the nearest multiple of `2 ^ e`, ties to the even
multiple. -/
def rne (n e : ℕ) : ℕ :=
  let q := n / 2 ^ e
  let r := n % 2 ^ e
  if 2 * r < 2 ^ e then q * 2 ^ e
  else if 2 ^ e < 2 * r then (q + 1) * 2 ^ e
  else (if q % 2 = 0 then q else q + 1) * 2 ^ e

/-- Rounds a nonnegative integer to the nearest IEEE-754 double: integers
up to `2 ^ 53` are exact; a larger integer in `[2 ^ k, 2 ^ (k + 1))` is
rounded to the nearest multiple of `2 ^ (k - 52)`, ties to even. -/
def doubleRound (n : ℕ) : ℕ :=
  if n ≤ 2 ^ 53 then n else rne n (floorLog2 n - 52)

/-- One loop iteration as JavaScript computes it on doubles. -/
def jsStep (a c m x : ℕ) : ℕ :=
  doubleRound (doubleRound (a * x) + c) % m

/-- The generation loop on doubles. -/
def jsGenerateAux (a c m current : ℕ) : ℕ → List ℕ
  | 0 => []
  | n + 1 => jsStep a c m current :: jsGenerateAux a c m (jsStep a c m current) n

/-- Model of `generate(count)` as actually computed by JavaScript for nonnegative
integer parameters. -/
def jsGenerate (a c m s count : ℕ) : List ℕ :=
  jsGenerateAux a c m s count

/-- One loop iteration in exact integer arithmetic (the mathematical
recurrence, specialised to nonnegative parameters). -/
def natStep (a c m x : ℕ) : ℕ := (a * x + c) % m

/-- The generation loop in exact integer arithmetic. -/
def natGenerateAux (a c m current : ℕ) : ℕ → List ℕ
  | 0 => []
  | n + 1 => natStep a c m current :: natGenerateAux a c m (natStep a c m current) n

/-- Reference `generate(count)` in exact integer arithmetic. -/
def natGenerate (a c m s count : ℕ) : List ℕ :=
  natGenerateAux a c m s count

/-- The spec-side reading of validation rule 1, written from the spec's
words "every field parses as a base-10 integer with no fractional part
(reject non-numeric, empty, or non-integer-valued strings)": the field is
not empty after trimming, and it converts to a finite integer. -/
def specIntField (s : String) : Bool :=
  !(trimChars s.data).isEmpty && jsIsFiniteInteger (jsStringToNumber s)

/-- Decidable equality on validator outcomes, so that concrete validator
runs can be checked by evaluation. -/
instance {ε α : Type} [DecidableEq ε] [DecidableEq α] :
    DecidableEq (Except ε α) := fun x y =>
  match x, y with
  | .ok a, .ok b =>
    if h : a = b then .isTrue (by rw [h]) else .isFalse (by simp [h])
  | .error a, .error b =>
    if h : a = b then .isTrue (by rw [h]) else .isFalse (by simp [h])
  | .ok _, .error _ => .isFalse (by simp)
  | .error _, .ok _ => .isFalse (by simp)

/-! # Theorems -/

theorem generateAux_length (g : LCGGenerator) (current : ℤ) (n : ℕ) :
    (generateAux g current n).length = n := by
  induction n generalizing current with
  | zero => rfl
  | succ n ih => simp [generateAux, ih]

theorem generateAux_get? (g : LCGGenerator) (k n i : ℕ) (hi : i < n) :
    (generateAux g (lcgSeq g k) n).get? i = some (lcgSeq g (k + i + 1)) := by
  induction n generalizing k i with
  | zero => omega
  | succ n ih =>
    cases i with
    | zero => rfl
    | succ i =>
      have h1 : lcgStep g (lcgSeq g k) = lcgSeq g (k + 1) := rfl
      have h2 := ih (k + 1) i (by omega)
      have h3 : (generateAux g (lcgSeq g k) (n + 1)).get? (i + 1)
          = (generateAux g (lcgSeq g (k + 1)) n).get? i := by
        simp [generateAux, h1]
      rw [h3, h2]
      congr 2
      omega

theorem generate_get? (g : LCGGenerator) (n i : ℕ) (hi : i < n) :
    (generate g (n : ℤ)).get? i = some (lcgSeq g (i + 1)) := by
  have h0 : ((n : ℤ)).toNat = n := Int.toNat_natCast n
  have h := generateAux_get? g 0 n i hi
  simpa [generate, h0] using h

/-- C1: for every valid GeneratorParams and every count `n ≥ 1`, the i-th
emitted raw value (1-based) of `generate(n)` equals `x[i]` of the recurrence
`x[0] = seed`, `x[i] = (a * x[i-1] + c) mod m`; the seed itself is never
emitted, so the first emitted value is `x[1]`.  For `a=5, c=3, m=16, s=1,
n=5` the raw sequence is `[8, 11, 10, 5, 12]`. -/
theorem generate_eq_recurrence (g : LCGGenerator)
    (ha : 0 ≤ g.multiplier) (hc : 0 ≤ g.increment) (hm : 1 < g.modulus)
    (hs : 0 ≤ g.seed ∧ g.seed < g.modulus)
    (n : ℕ) (hn : 1 ≤ n) (i : ℕ) (hi : 1 ≤ i ∧ i ≤ n) :
    (generate g (n : ℤ)).get? (i - 1) = some (lcgSeq g i) ∧
      generate ⟨5, 3, 16, 1⟩ 5 = [8, 11, 10, 5, 12] := by
  constructor
  · have h := generate_get? g n (i - 1) (by omega)
    have hi1 : i - 1 + 1 = i := by omega
    rw [hi1] at h
    exact h
  · decide

/-- Witness for C1 at `a=5, c=3, m=16, s=1, n=5, i=1`: the first emitted
value is `x[1] = 8`, not the seed. -/
theorem generate_eq_recurrence_witness :
    (generate ⟨5, 3, 16, 1⟩ ((5 : ℕ) : ℤ)).get? 0 = some (lcgSeq ⟨5, 3, 16, 1⟩ 1) ∧
      generate ⟨5, 3, 16, 1⟩ 5 = [8, 11, 10, 5, 12] :=
  generate_eq_recurrence ⟨5, 3, 16, 1⟩ (by decide) (by decide) (by decide)
    ⟨by decide, by decide⟩ 5 (by decide) 1 ⟨by decide, by decide⟩

theorem lcgStep_bounds (g : LCGGenerator) (ha : 0 ≤ g.multiplier)
    (hc : 0 ≤ g.increment) (hm : 0 < g.modulus) (x : ℤ) (hx : 0 ≤ x) :
    0 ≤ lcgStep g x ∧ lcgStep g x < g.modulus := by
  have hd : 0 ≤ g.multiplier * x + g.increment :=
    add_nonneg (mul_nonneg ha hx) hc
  unfold lcgStep jsRem
  rw [Int.tmod_eq_emod hd (le_of_lt hm)]
  exact ⟨Int.emod_nonneg _ (ne_of_gt hm), Int.emod_lt_of_pos _ hm⟩

theorem mem_generateAux_bounds (g : LCGGenerator) (ha : 0 ≤ g.multiplier)
    (hc : 0 ≤ g.increment) (hm : 0 < g.modulus) :
    ∀ (n : ℕ) (cur : ℤ), 0 ≤ cur →
      ∀ v ∈ generateAux g cur n, 0 ≤ v ∧ v < g.modulus := by
  intro n
  induction n with
  | zero => intro cur _ v hv; simp [generateAux] at hv
  | succ n ih =>
    intro cur hcur v hv
    have hstep := lcgStep_bounds g ha hc hm cur hcur
    simp only [generateAux, List.mem_cons] at hv
    rcases hv with rfl | hv
    · exact hstep
    · exact ih (lcgStep g cur) hstep.1 v hv

/-- C2: for every valid GeneratorParams (multiplier ≥ 0, increment ≥ 0,
modulus > 1, 0 ≤ seed < modulus) and every `n ≥ 1`,
`generateNormalized(n)` returns exactly `n` samples; every sample has
`raw ∈ [0, modulus)`, `normalized = raw / modulus` and
`0 ≤ normalized < 1`; and the sample order equals generation order. -/
theorem generateNormalized_spec (g : LCGGenerator)
    (ha : 0 ≤ g.multiplier) (hc : 0 ≤ g.increment) (hm : 1 < g.modulus)
    (hs0 : 0 ≤ g.seed) (hs1 : g.seed < g.modulus) (n : ℕ) (hn : 1 ≤ n) :
    (generateNormalized g (n : ℤ)).length = n ∧
      (∀ s ∈ generateNormalized g (n : ℤ),
        0 ≤ s.raw ∧ s.raw < g.modulus ∧
          s.normalized = (s.raw : ℚ) / (g.modulus : ℚ) ∧
          0 ≤ s.normalized ∧ s.normalized < 1) ∧
      (generateNormalized g (n : ℤ)).map Sample.raw = generate g (n : ℤ) := by
  have hm0 : (0 : ℤ) < g.modulus := by omega
  have hmQ : (0 : ℚ) < (g.modulus : ℚ) := by exact_mod_cast hm0
  refine ⟨?_, ?_, ?_⟩
  · simp [generateNormalized, generate, generateAux_length, Int.toNat_natCast]
  · intro s hs
    simp only [generateNormalized, List.mem_map] at hs
    obtain ⟨v, hv, rfl⟩ := hs
    have hb := mem_generateAux_bounds g ha hc hm0 _ _ hs0 v hv
    refine ⟨hb.1, hb.2, rfl, ?_, ?_⟩
    · exact div_nonneg (by exact_mod_cast hb.1) (le_of_lt hmQ)
    · exact (div_lt_one hmQ).mpr (by exact_mod_cast hb.2)
  · have hcomp : (Sample.raw ∘ fun v : ℤ =>
        (⟨v, (v : ℚ) / (g.modulus : ℚ)⟩ : Sample)) = id := rfl
    simp [generateNormalized, List.map_map, hcomp]

/-- Witness for C2 at `a=5, c=3, m=16, s=1, n=5`. -/
theorem generateNormalized_spec_witness :
    (generateNormalized ⟨5, 3, 16, 1⟩ ((5 : ℕ) : ℤ)).length = 5 ∧
      (∀ s ∈ generateNormalized ⟨5, 3, 16, 1⟩ ((5 : ℕ) : ℤ),
        0 ≤ s.raw ∧ s.raw < (16 : ℤ) ∧
          s.normalized = (s.raw : ℚ) / ((16 : ℤ) : ℚ) ∧
          0 ≤ s.normalized ∧ s.normalized < 1) ∧
      (generateNormalized ⟨5, 3, 16, 1⟩ ((5 : ℕ) : ℤ)).map Sample.raw =
        generate ⟨5, 3, 16, 1⟩ ((5 : ℕ) : ℤ) :=
  generateNormalized_spec ⟨5, 3, 16, 1⟩ (by decide) (by decide) (by decide)
    (by decide) (by decide) 5 (by decide)

/-- C10: for every GeneratorParams and every `count ≤ 0`, `generate(count)`
and `generateNormalized(count)` return the empty sequence without error:
the JS `for` loop body never runs, and only the validator rejects
non-positive counts. -/
theorem generate_nonpos_empty (g : LCGGenerator) (count : ℤ) (h : count ≤ 0) :
    generate g count = [] ∧ generateNormalized g count = [] := by
  have h0 : count.toNat = 0 := Int.toNat_of_nonpos h
  exact ⟨by simp [generate, h0, generateAux],
    by simp [generateNormalized, generate, h0, generateAux]⟩

theorem log2Fuel_eq_log (fuel : ℕ) :
    ∀ n : ℕ, n ≤ fuel → log2Fuel fuel n = Nat.log 2 n := by
  induction fuel with
  | zero =>
    intro n h
    have h0 : n = 0 := by omega
    subst h0
    simp [log2Fuel]
  | succ fuel ih =>
    intro n h
    by_cases h2 : 2 ≤ n
    · have hdiv : n / 2 ≤ fuel := by omega
      simp only [log2Fuel, if_pos h2]
      rw [ih _ hdiv, Nat.log_of_one_lt_of_le (by norm_num) h2]
    · simp only [log2Fuel, if_neg h2]
      rw [Nat.log_of_lt (by omega)]

theorem floorLog2_eq_log (n : ℕ) : floorLog2 n = Nat.log 2 n :=
  log2Fuel_eq_log n n le_rfl

theorem ceilLog2_le_pow (n : ℕ) (hn : 1 ≤ n) : n ≤ 2 ^ ceilLog2 n := by
  unfold ceilLog2
  by_cases h1 : n ≤ 1
  · rw [if_pos h1]
    simp only [pow_zero]
    omega
  · rw [if_neg h1, floorLog2_eq_log]
    have h2 : n - 1 < 2 ^ (Nat.log 2 (n - 1) + 1) :=
      Nat.lt_pow_succ_log_self (by norm_num) (n - 1)
    omega

theorem pow_ceilLog2_pred_lt (n : ℕ) (hn : 2 ≤ n) : 2 ^ (ceilLog2 n - 1) < n := by
  unfold ceilLog2
  rw [if_neg (by omega), floorLog2_eq_log]
  simp only [Nat.add_sub_cancel]
  have h := Nat.pow_log_le_self 2 (x := n - 1) (by omega)
  omega

theorem nextPow2_eq_pow (n : ℤ) (hn : 1 ≤ n) :
    nextPow2 n = 2 ^ max 1 (ceilLog2 n.toNat) := by
  unfold nextPow2
  rw [if_neg (by omega)]
  cases h : ceilLog2 n.toNat with
  | zero => norm_num
  | succ k =>
    have h2 : (2 : ℤ) ≤ 2 ^ (k + 1) := by
      calc (2 : ℤ) = 2 ^ 1 := (pow_one 2).symm
      _ ≤ 2 ^ (k + 1) := pow_le_pow_right₀ (by norm_num) (by omega)
    rw [max_eq_right h2]
    congr 1
    omega

theorem nextPow2_ge (n : ℤ) (hn : 1 ≤ n) : n ≤ nextPow2 n := by
  have h1 : n.toNat ≤ 2 ^ ceilLog2 n.toNat := ceilLog2_le_pow n.toNat (by omega)
  unfold nextPow2
  rw [if_neg (by omega)]
  calc n = (n.toNat : ℤ) := (Int.toNat_of_nonneg (by omega)).symm
  _ ≤ ((2 ^ ceilLog2 n.toNat : ℕ) : ℤ) := by exact_mod_cast h1
  _ = (2 : ℤ) ^ ceilLog2 n.toNat := by push_cast; ring
  _ ≤ max 2 ((2 : ℤ) ^ ceilLog2 n.toNat) := le_max_right _ _

theorem ceilLog2_pos (n : ℕ) (h : 2 ≤ n) : 1 ≤ ceilLog2 n := by
  unfold ceilLog2
  rw [if_neg (by omega)]
  omega

theorem ceilLog2_le_49 (n : ℕ) (h2 : n ≤ 2 ^ 49) : ceilLog2 n ≤ 49 := by
  by_cases h1 : n ≤ 1
  · unfold ceilLog2
    rw [if_pos h1]
    omega
  · have hk : 2 ^ (ceilLog2 n - 1) < n := pow_ceilLog2_pred_lt n (by omega)
    have hlt : 2 ^ (ceilLog2 n - 1) < 2 ^ 49 := lt_of_lt_of_le hk h2
    have := (Nat.pow_lt_pow_iff_right (by norm_num : 1 < 2)).mp hlt
    omega

theorem logb_counterexample_lower : (49 : ℝ) < Real.logb 2 ((2 : ℝ) ^ 49 + 1) := by
  have h0 : (0 : ℝ) < (2 : ℝ) ^ 49 + 1 := by positivity
  rw [Real.lt_logb_iff_rpow_lt one_lt_two h0]
  rw [show ((49 : ℝ)) = ((49 : ℕ) : ℝ) by norm_num, Real.rpow_natCast]
  linarith

theorem logb_counterexample_upper :
    Real.logb 2 ((2 : ℝ) ^ 49 + 1) < 49 + ((2 : ℝ) ^ 48)⁻¹ := by
  have h0 : (0 : ℝ) < (2 : ℝ) ^ 49 + 1 := by positivity
  rw [Real.logb_lt_iff_lt_rpow one_lt_two h0]
  have hsplit : (2 : ℝ) ^ ((49 : ℝ) + ((2 : ℝ) ^ 48)⁻¹) =
      (2 : ℝ) ^ (49 : ℕ) * (2 : ℝ) ^ (((2 : ℝ) ^ 48)⁻¹) := by
    rw [Real.rpow_add two_pos]
    congr 1
    rw [show ((49 : ℝ)) = ((49 : ℕ) : ℝ) by norm_num, Real.rpow_natCast]
  rw [hsplit]
  have hexp : (1 : ℝ) + ((2 : ℝ) ^ 48)⁻¹ * Real.log 2 ≤ (2 : ℝ) ^ (((2 : ℝ) ^ 48)⁻¹) := by
    rw [Real.rpow_def_of_pos two_pos]
    have h := Real.add_one_le_exp (Real.log 2 * ((2 : ℝ) ^ 48)⁻¹)
    nlinarith [h]
  have hlog : (0.6931471803 : ℝ) < Real.log 2 := Real.log_two_gt_d9
  have hmul : (2 : ℝ) ^ (49 : ℕ) * (((2 : ℝ) ^ 48)⁻¹ * Real.log 2) = 2 * Real.log 2 := by
    field_simp
    ring
  calc (2 : ℝ) ^ (49 : ℕ) + 1 < (2 : ℝ) ^ (49 : ℕ) + 2 * Real.log 2 := by nlinarith [hlog]
  _ = (2 : ℝ) ^ (49 : ℕ) * (1 + ((2 : ℝ) ^ 48)⁻¹ * Real.log 2) := by
      rw [mul_add, hmul, mul_one]
  _ ≤ (2 : ℝ) ^ (49 : ℕ) * (2 : ℝ) ^ (((2 : ℝ) ^ 48)⁻¹) :=
      mul_le_mul_of_nonneg_left hexp (by positivity)

theorem logb_window (n : ℕ) (h1 : 1 ≤ n) (h2 : n ≤ 2 ^ 49) :
    ((ceilLog2 n : ℝ) - 1) + ((2 : ℝ) ^ 48)⁻¹ < Real.logb 2 (n : ℝ) ∧
      Real.logb 2 (n : ℝ) ≤ (ceilLog2 n : ℝ) := by
  have hn0 : (0 : ℝ) < (n : ℝ) := by exact_mod_cast h1
  constructor
  · by_cases hsmall : n ≤ 1
    · have hn1 : n = 1 := by omega
      subst hn1
      have hc : ceilLog2 1 = 0 := rfl
      rw [hc]
      norm_num
    · have hn2 : 2 ≤ n := by omega
      have hk1 : 1 ≤ ceilLog2 n := ceilLog2_pos n hn2
      have hk49 : ceilLog2 n ≤ 49 := ceilLog2_le_49 n h2
      have hlo : 2 ^ (ceilLog2 n - 1) < n := pow_ceilLog2_pred_lt n hn2
      rw [Real.lt_logb_iff_rpow_lt one_lt_two hn0]
      have hcast : ((ceilLog2 n : ℝ) - 1) = ((ceilLog2 n - 1 : ℕ) : ℝ) := by
        rw [Nat.cast_sub hk1]
        norm_num
      rw [hcast, Real.rpow_add two_pos, Real.rpow_natCast]
      have hy1 : Real.log 2 * ((2 : ℝ) ^ 48)⁻¹ < (0.6931471808 : ℝ) * ((2 : ℝ) ^ 48)⁻¹ :=
        mul_lt_mul_of_pos_right Real.log_two_lt_d9 (by positivity)
      have hypos : 0 < Real.log 2 * ((2 : ℝ) ^ 48)⁻¹ := by
        have := Real.log_pos (by norm_num : (1 : ℝ) < 2)
        positivity
      have h1ypos : 0 < 1 - Real.log 2 * ((2 : ℝ) ^ 48)⁻¹ := by
        have hsmall2 : (0.6931471808 : ℝ) * ((2 : ℝ) ^ 48)⁻¹ < 1 := by norm_num
        linarith
      have hexp : (2 : ℝ) ^ (((2 : ℝ) ^ 48)⁻¹) ≤ (1 - Real.log 2 * ((2 : ℝ) ^ 48)⁻¹)⁻¹ := by
        rw [Real.rpow_def_of_pos two_pos]
        have hle : 1 - Real.log 2 * ((2 : ℝ) ^ 48)⁻¹ ≤
            Real.exp (-(Real.log 2 * ((2 : ℝ) ^ 48)⁻¹)) := by
          have := Real.add_one_le_exp (-(Real.log 2 * ((2 : ℝ) ^ 48)⁻¹))
          linarith
        have hinv := inv_le_inv_of_le h1ypos hle
        rw [Real.exp_neg, inv_inv] at hinv
        exact hinv
      have hAle : (2 : ℝ) ^ (ceilLog2 n - 1) ≤ (2 : ℝ) ^ 48 :=
        pow_le_pow_right₀ one_le_two (by omega)
      have hApos : (0 : ℝ) < (2 : ℝ) ^ (ceilLog2 n - 1) := by positivity
      have hnsucc : (2 : ℝ) ^ (ceilLog2 n - 1) + 1 ≤ (n : ℝ) := by
        have hnat : 2 ^ (ceilLog2 n - 1) + 1 ≤ n := hlo
        calc (2 : ℝ) ^ (ceilLog2 n - 1) + 1
            = ((2 ^ (ceilLog2 n - 1) + 1 : ℕ) : ℝ) := by push_cast; ring
        _ ≤ (n : ℝ) := by exact_mod_cast hnat
      have hstep1 : (2 : ℝ) ^ (ceilLog2 n - 1) * (2 : ℝ) ^ (((2 : ℝ) ^ 48)⁻¹) ≤
          (2 : ℝ) ^ (ceilLog2 n - 1) * (1 - Real.log 2 * ((2 : ℝ) ^ 48)⁻¹)⁻¹ :=
        mul_le_mul_of_nonneg_left hexp (le_of_lt hApos)
      have hstep2 : (2 : ℝ) ^ (ceilLog2 n - 1) *
          (1 - Real.log 2 * ((2 : ℝ) ^ 48)⁻¹)⁻¹ < (2 : ℝ) ^ (ceilLog2 n - 1) + 1 := by
        rw [← div_eq_mul_inv, div_lt_iff h1ypos]
        have hyA : Real.log 2 * ((2 : ℝ) ^ 48)⁻¹ * (2 : ℝ) ^ (ceilLog2 n - 1) ≤
            Real.log 2 * ((2 : ℝ) ^ 48)⁻¹ * (2 : ℝ) ^ 48 :=
          mul_le_mul_of_nonneg_left hAle (le_of_lt hypos)
        have hε48 : ((2 : ℝ) ^ 48)⁻¹ * (2 : ℝ) ^ 48 = 1 := by norm_num
        have hy48 : Real.log 2 * ((2 : ℝ) ^ 48)⁻¹ * (2 : ℝ) ^ 48 < 0.6931471808 := by
          rw [mul_assoc, hε48, mul_one]
          linarith [Real.log_two_lt_d9]
        have hytiny : Real.log 2 * ((2 : ℝ) ^ 48)⁻¹ < 0.001 := by
          have : (0.6931471808 : ℝ) * ((2 : ℝ) ^ 48)⁻¹ < 0.001 := by norm_num
          linarith
        nlinarith [hyA, hy48, hytiny, hApos]
      calc (2 : ℝ) ^ (ceilLog2 n - 1) * (2 : ℝ) ^ (((2 : ℝ) ^ 48)⁻¹)
          ≤ (2 : ℝ) ^ (ceilLog2 n - 1) * (1 - Real.log 2 * ((2 : ℝ) ^ 48)⁻¹)⁻¹ := hstep1
      _ < (2 : ℝ) ^ (ceilLog2 n - 1) + 1 := hstep2
      _ ≤ (n : ℝ) := hnsucc
  · rw [Real.logb_le_iff_le_rpow one_lt_two hn0, Real.rpow_natCast]
    have := ceilLog2_le_pow n h1
    exact_mod_cast this

theorem ceil_window (n : ℤ) (hn : 1 ≤ n) (l : ℚ)
    (hl1 : (ceilLog2 n.toNat : ℚ) - 1 < l) (hl2 : l ≤ (ceilLog2 n.toNat : ℚ)) :
    nextPow2WithLog2 l n = nextPow2 n := by
  have hceil : ⌈l⌉ = (ceilLog2 n.toNat : ℤ) := by
    rw [Int.ceil_eq_iff]
    constructor
    · exact_mod_cast hl1
    · exact_mod_cast hl2
  unfold nextPow2WithLog2 nextPow2
  rw [if_neg (by omega), if_neg (by omega), hceil, Int.toNat_natCast]

/-- C3 counterexample: at count `n = 2^49 + 1 = 562949953421313`, which the
deriving validator accepts, the true `log2 n` lies strictly between 49 and
`49 + 2⁻⁴⁸` — closer to 49 than half the double spacing `2⁻⁴⁷` at 49 — so
a correctly rounded `Math.log2` returns exactly 49.0 and the JS pipeline
yields `2^49 < n`, refuting `result ≥ n` and minimality (the exact model
used by `validateInputsDerive` returns `2^50` instead). -/
theorem nextPow2_float_counterexample :
    validateInputsDerive ⟨"0", "1", "1", "562949953421313"⟩ =
        .ok ⟨0, 1, 1, 1125899906842624, 562949953421313⟩ ∧
      (49 : ℝ) < Real.logb 2 ((2 : ℝ) ^ 49 + 1) ∧
      Real.logb 2 ((2 : ℝ) ^ 49 + 1) < 49 + ((2 : ℝ) ^ 48)⁻¹ ∧
      nextPow2WithLog2 49 (2 ^ 49 + 1) = 2 ^ 49 ∧
      nextPow2WithLog2 49 (2 ^ 49 + 1) < 2 ^ 49 + 1 :=
  ⟨by decide, logb_counterexample_lower, logb_counterexample_upper,
   by decide, by decide⟩

/-- C3 amended: for every integer `1 ≤ n ≤ 2^49`, `nextPow2(n)` is the
smallest power of two `≥ n` with a floor of 2 (result a power of two,
`result ≥ n`, `result / 2 < n` or `result = 2` when `n ≤ 2`);
`nextPow2(1) = 2`, `nextPow2(10) = 16`; the deriving validator sets
`modulus = nextPow2(count)`.  On this range the floating-point pipeline
`2 ** Math.ceil(Math.log2 n)` agrees with the exact model for every
`Math.log2` result in the window `(ceilLog2 n - 1, ceilLog2 n]`, and the
true logarithm sits in that window with a margin greater than `2⁻⁴⁸` (half
the double spacing at 49) above its bottom, so a correctly rounded
`Math.log2` — whose result never exceeds the representable integer ceiling
— lands in the window.  Beyond `2^49` the claim fails: see the
counterexample. -/
theorem nextPow2_spec_bounded (n : ℤ) (hn : 1 ≤ n) (hub : n ≤ 2 ^ 49) :
    (∃ k : ℕ, nextPow2 n = 2 ^ k) ∧
      n ≤ nextPow2 n ∧
      (nextPow2 n / 2 < n ∨ (nextPow2 n = 2 ∧ n ≤ 2)) ∧
      nextPow2 1 = 2 ∧ nextPow2 10 = 16 ∧
      (∀ (f : RawFieldsDerive) (p : Params),
        validateInputsDerive f = .ok p → p.modulus = nextPow2 p.count) ∧
      (∀ l : ℚ, (ceilLog2 n.toNat : ℚ) - 1 < l → l ≤ (ceilLog2 n.toNat : ℚ) →
        nextPow2WithLog2 l n = nextPow2 n) ∧
      ((ceilLog2 n.toNat : ℝ) - 1) + ((2 : ℝ) ^ 48)⁻¹ < Real.logb 2 ((n : ℤ) : ℝ) ∧
      Real.logb 2 ((n : ℤ) : ℝ) ≤ (ceilLog2 n.toNat : ℝ) := by
  have htb : n.toNat ≤ 2 ^ 49 := by
    have h2 : (2 : ℤ) ^ 49 = 562949953421312 := by norm_num
    have h2n : (2 : ℕ) ^ 49 = 562949953421312 := by norm_num
    omega
  have htn : ((n.toNat : ℕ) : ℝ) = ((n : ℤ) : ℝ) := by
    have h := Int.toNat_of_nonneg (show (0 : ℤ) ≤ n by omega)
    exact_mod_cast congrArg (fun z : ℤ => (z : ℝ)) h
  have hwin := logb_window n.toNat (by omega) htb
  refine ⟨⟨max 1 (ceilLog2 n.toNat), nextPow2_eq_pow n hn⟩, nextPow2_ge n hn,
    ?_, by decide, by decide, ?_, ?_, ?_, ?_⟩
  · rcases le_or_lt n 2 with h2 | h2
    · refine Or.inr ⟨?_, h2⟩
      interval_cases n
      · decide
      · decide
    · refine Or.inl ?_
      have hn2 : 2 ≤ n.toNat := by omega
      have hpos : 0 < ceilLog2 n.toNat := ceilLog2_pos n.toNat hn2
      have hlt : 2 ^ (ceilLog2 n.toNat - 1) < n.toNat :=
        pow_ceilLog2_pred_lt n.toNat hn2
      have heq : nextPow2 n = 2 ^ ceilLog2 n.toNat := by
        rw [nextPow2_eq_pow n hn, max_eq_right (by omega)]
      have hsplit : (2 : ℤ) ^ ceilLog2 n.toNat =
          2 ^ (ceilLog2 n.toNat - 1) * 2 := by
        rw [← pow_succ]
        congr 1
        omega
      rw [heq, hsplit, Int.mul_ediv_cancel _ (by norm_num)]
      calc (2 : ℤ) ^ (ceilLog2 n.toNat - 1)
          = ((2 ^ (ceilLog2 n.toNat - 1) : ℕ) : ℤ) := by push_cast; ring
      _ < (n.toNat : ℤ) := by exact_mod_cast hlt
      _ = n := Int.toNat_of_nonneg (by omega)
  · intro f p h
    simp only [validateInputsDerive] at h
    split at h
    · simp at h
    · split at h
      · simp at h
      · split at h
        · simp at h
        · injection h with h
          subst h
          rfl
  · intro l hl1 hl2
    exact ceil_window n hn l hl1 hl2
  · rw [← htn]
    exact hwin.1
  · rw [← htn]
    exact hwin.2

/-- Witness for C3 amended at `n = 10`. -/
theorem nextPow2_spec_bounded_witness :
    (∃ k : ℕ, nextPow2 10 = 2 ^ k) ∧
      (10 : ℤ) ≤ nextPow2 10 ∧
      (nextPow2 10 / 2 < 10 ∨ (nextPow2 10 = 2 ∧ (10 : ℤ) ≤ 2)) ∧
      nextPow2 1 = 2 ∧ nextPow2 10 = 16 ∧
      (∀ (f : RawFieldsDerive) (p : Params),
        validateInputsDerive f = .ok p → p.modulus = nextPow2 p.count) ∧
      (∀ l : ℚ, (ceilLog2 (10 : ℤ).toNat : ℚ) - 1 < l →
        l ≤ (ceilLog2 (10 : ℤ).toNat : ℚ) →
        nextPow2WithLog2 l 10 = nextPow2 10) ∧
      ((ceilLog2 (10 : ℤ).toNat : ℝ) - 1) + ((2 : ℝ) ^ 48)⁻¹ <
        Real.logb 2 ((10 : ℤ) : ℝ) ∧
      Real.logb 2 ((10 : ℤ) : ℝ) ≤ (ceilLog2 (10 : ℤ).toNat : ℝ) :=
  nextPow2_spec_bounded 10 (by decide) (by decide)

theorem plot_eq_mapIdx (cw ch : ℚ) (data : List Sample) (h : data ≠ []) :
    plot cw ch data = data.mapIdx (fun i s =>
      ⟨paddingLeft + ((i : ℚ) / ((max (data.length - 1) 1 : ℕ) : ℚ)) *
          (cw - paddingLeft - paddingRight),
       paddingTop + (1 - s.normalized) * (ch - paddingTop - paddingBottom)⟩) := by
  simp [plot, h]

/-- C4: the plot mapper produces one point per sample in index order; the
point for index `i` has
`x = left + (i / max(n-1, 1)) * (width - left - right)` and
`y = top + (1 - normalized) * (height - top - bottom)`; for `n = 1` the
single point's x equals `left`, and for `n > 1` the last point's x equals
`width - right`. -/
theorem plot_spec (cw ch : ℚ) (data : List Sample) (hn : 1 ≤ data.length) :
    (plot cw ch data).length = data.length ∧
      (∀ (i : ℕ) (hi : i < data.length),
        (plot cw ch data).get? i = some
          ⟨paddingLeft + ((i : ℚ) / ((max (data.length - 1) 1 : ℕ) : ℚ)) *
              (cw - paddingLeft - paddingRight),
           paddingTop + (1 - (data.get ⟨i, hi⟩).normalized) *
              (ch - paddingTop - paddingBottom)⟩) ∧
      (data.length = 1 → (plot cw ch data).map PlotPoint.x = [paddingLeft]) ∧
      (1 < data.length →
        ((plot cw ch data).map PlotPoint.x).get? (data.length - 1) =
          some (cw - paddingRight)) := by
  have hne : data ≠ [] := by
    intro h
    subst h
    simp at hn
  have hlen : (plot cw ch data).length = data.length := by
    rw [plot_eq_mapIdx cw ch data hne]
    exact List.length_mapIdx
  have hget : ∀ (i : ℕ) (hi : i < data.length),
      (plot cw ch data).get? i = some
        ⟨paddingLeft + ((i : ℚ) / ((max (data.length - 1) 1 : ℕ) : ℚ)) *
            (cw - paddingLeft - paddingRight),
         paddingTop + (1 - (data.get ⟨i, hi⟩).normalized) *
            (ch - paddingTop - paddingBottom)⟩ := by
    intro i hi
    rw [plot_eq_mapIdx cw ch data hne]
    have hi2 : i < (List.mapIdx (fun i s =>
        (⟨paddingLeft + ((i : ℚ) / ((max (data.length - 1) 1 : ℕ) : ℚ)) *
            (cw - paddingLeft - paddingRight),
          paddingTop + (1 - s.normalized) * (ch - paddingTop - paddingBottom)⟩ :
            PlotPoint)) data).length := by
      rw [List.length_mapIdx]
      exact hi
    rw [List.get?_eq_get hi2, List.get_mapIdx data _ i hi]
  refine ⟨hlen, hget, ?_, ?_⟩
  · intro h1
    obtain ⟨s, rfl⟩ : ∃ s, data = [s] := by
      cases data with
      | nil => simp at h1
      | cons a l =>
        cases l with
        | nil => exact ⟨a, rfl⟩
        | cons b l2 => simp at h1
    rw [plot_eq_mapIdx cw ch [s] hne]
    simp [List.mapIdx_cons]
  · intro h2
    have hi : data.length - 1 < data.length := by omega
    have h := hget (data.length - 1) hi
    rw [List.get?_map, h]
    have hmax : max (data.length - 1) 1 = data.length - 1 := max_eq_left (by omega)
    have hcast : ((data.length - 1 : ℕ) : ℚ) ≠ 0 := by
      exact_mod_cast Nat.pos_iff_ne_zero.mp (by omega)
    simp only [Option.map_some, hmax]
    rw [div_self hcast]
    simp [paddingLeft, paddingRight]
    ring

/-- Witness for C4 at a two-sample sequence on a 600 × 400 canvas. -/
theorem plot_spec_witness :
    (plot 600 400 [⟨8, 1/2⟩, ⟨11, 11/16⟩]).length =
        ([⟨8, 1/2⟩, ⟨11, 11/16⟩] : List Sample).length ∧
      (∀ (i : ℕ) (hi : i < ([⟨8, 1/2⟩, ⟨11, 11/16⟩] : List Sample).length),
        (plot 600 400 [⟨8, 1/2⟩, ⟨11, 11/16⟩]).get? i = some
          ⟨paddingLeft + ((i : ℚ) /
              ((max (([⟨8, 1/2⟩, ⟨11, 11/16⟩] : List Sample).length - 1) 1 : ℕ) : ℚ)) *
              (600 - paddingLeft - paddingRight),
           paddingTop +
              (1 - (([⟨8, 1/2⟩, ⟨11, 11/16⟩] : List Sample).get ⟨i, hi⟩).normalized) *
              (400 - paddingTop - paddingBottom)⟩) ∧
      (([⟨8, 1/2⟩, ⟨11, 11/16⟩] : List Sample).length = 1 →
        (plot 600 400 [⟨8, 1/2⟩, ⟨11, 11/16⟩]).map PlotPoint.x = [paddingLeft]) ∧
      (1 < ([⟨8, 1/2⟩, ⟨11, 11/16⟩] : List Sample).length →
        ((plot 600 400 [⟨8, 1/2⟩, ⟨11, 11/16⟩]).map PlotPoint.x).get?
            (([⟨8, 1/2⟩, ⟨11, 11/16⟩] : List Sample).length - 1) =
          some (600 - paddingRight)) :=
  plot_spec 600 400 [⟨8, 1/2⟩, ⟨11, 11/16⟩] (by decide)

/-- Witness for C10 at `count = -1`. -/
theorem generate_nonpos_empty_witness :
    generate ⟨5, 3, 16, 1⟩ (-1) = [] ∧ generateNormalized ⟨5, 3, 16, 1⟩ (-1) = [] :=
  generate_nonpos_empty ⟨5, 3, 16, 1⟩ (-1) (by decide)

/-- C5 counterexample: with an empty seed field (other fields "1", "1",
"5"), the empty field fails the spec's base-10-integer rule, yet the
deriving validator raises no ParseError: JavaScript converts the empty
string to 0 and the submission is accepted outright. -/
theorem parse_rule_counterexample :
    ¬ (validateInputsDerive ⟨"", "1", "1", "5"⟩ = .error .parseError ↔
        ¬ (specIntField "" = true ∧ specIntField "1" = true ∧
           specIntField "1" = true ∧ specIntField "5" = true)) := by
  decide

/-- C5 amended: the validator fails with the ParseError iff some field's
`Number` conversion is not a finite integer; non-numeric and
non-integer-valued strings are so rejected as the first validation rule,
but an empty (or all-whitespace) field converts to 0 and is accepted. -/
theorem parseError_iff (f : RawFieldsDerive) :
    validateInputsDerive f = .error .parseError ↔
      ¬ (jsIsFiniteInteger (jsStringToNumber f.seed) = true ∧
         jsIsFiniteInteger (jsStringToNumber f.multiplier) = true ∧
         jsIsFiniteInteger (jsStringToNumber f.increment) = true ∧
         jsIsFiniteInteger (jsStringToNumber f.count) = true) := by
  simp only [validateInputsDerive]
  split
  case isTrue h => simp [h]
  case isFalse h =>
    split
    · simp [h]
    · split
      · simp [h]
      · simp [h]

/-- Witness for C5 amended at the fields "x", "1", "1", "5": the
non-numeric field makes the validator fail with the ParseError. -/
theorem parseError_iff_witness :
    validateInputsDerive ⟨"x", "1", "1", "5"⟩ = .error .parseError ↔
      ¬ (jsIsFiniteInteger (jsStringToNumber "x") = true ∧
         jsIsFiniteInteger (jsStringToNumber "1") = true ∧
         jsIsFiniteInteger (jsStringToNumber "1") = true ∧
         jsIsFiniteInteger (jsStringToNumber "5") = true) :=
  parseError_iff ⟨"x", "1", "1", "5"⟩

/-- C6 counterexample: the non-deriving validator accepts a negative
multiplier: on fields seed "1", multiplier "-5", increment "3", modulus
"16", count "5" it returns a validated record with multiplier -5 instead
of rejecting the input. -/
theorem negative_multiplier_accepted :
    validateInputsFixed ⟨"1", "-5", "3", "16", "5"⟩ true =
        .ok ⟨1, -5, 3, 16, 5⟩ ∧ (-5 : ℤ) < 0 := by
  decide

/-- C6 amended: the deriving validator rejects seed < 0, multiplier < 0 or
increment < 0 with its RangeError; the non-deriving validator rejects a
supplied modulus ≤ 1 with its range rule and a negative seed via its
seed-range rule, but performs no negativity check on multiplier or
increment. -/
theorem negativity_rejection :
    (∀ f : RawFieldsDerive,
      (jsIsFiniteInteger (jsStringToNumber f.seed) = true ∧
       jsIsFiniteInteger (jsStringToNumber f.multiplier) = true ∧
       jsIsFiniteInteger (jsStringToNumber f.increment) = true ∧
       jsIsFiniteInteger (jsStringToNumber f.count) = true) →
      (jsToInt (jsStringToNumber f.seed) < 0 ∨
       jsToInt (jsStringToNumber f.multiplier) < 0 ∨
       jsToInt (jsStringToNumber f.increment) < 0) →
      validateInputsDerive f = .error .rangeError) ∧
    (∀ (f : RawFieldsFixed) (b : Bool),
      (jsIsFiniteInteger (jsStringToNumber f.seed) = true ∧
       jsIsFiniteInteger (jsStringToNumber f.multiplier) = true ∧
       jsIsFiniteInteger (jsStringToNumber f.increment) = true ∧
       jsIsFiniteInteger (jsStringToNumber f.modulus) = true ∧
       jsIsFiniteInteger (jsStringToNumber f.count) = true) →
      jsToInt (jsStringToNumber f.modulus) ≤ 1 →
      validateInputsFixed f b = .error .modulusError) ∧
    (∀ (f : RawFieldsFixed) (b : Bool),
      (jsIsFiniteInteger (jsStringToNumber f.seed) = true ∧
       jsIsFiniteInteger (jsStringToNumber f.multiplier) = true ∧
       jsIsFiniteInteger (jsStringToNumber f.increment) = true ∧
       jsIsFiniteInteger (jsStringToNumber f.modulus) = true ∧
       jsIsFiniteInteger (jsStringToNumber f.count) = true) →
      1 < jsToInt (jsStringToNumber f.modulus) →
      jsToInt (jsStringToNumber f.seed) < 0 →
      validateInputsFixed f b = .error .seedRangeError) := by
  refine ⟨?_, ?_, ?_⟩
  · intro f hint hneg
    simp only [validateInputsDerive]
    rw [if_neg (not_not_intro hint), if_pos (by tauto)]
  · intro f b hint hm
    simp only [validateInputsFixed]
    rw [if_neg (not_not_intro hint), if_pos hm]
  · intro f b hint hm hs
    simp only [validateInputsFixed]
    rw [if_neg (not_not_intro hint), if_neg (by omega), if_pos (Or.inl hs)]

/-- Witness for C6 amended, one concrete input per rejection rule. -/
theorem negativity_rejection_witness :
    validateInputsDerive ⟨"-1", "0", "0", "5"⟩ = .error .rangeError ∧
      validateInputsFixed ⟨"0", "0", "0", "1", "5"⟩ true = .error .modulusError ∧
      validateInputsFixed ⟨"-1", "0", "0", "16", "5"⟩ true = .error .seedRangeError :=
  ⟨negativity_rejection.1 ⟨"-1", "0", "0", "5"⟩ (by decide) (by decide),
   negativity_rejection.2.1 ⟨"0", "0", "0", "1", "5"⟩ true (by decide) (by decide),
   negativity_rejection.2.2 ⟨"-1", "0", "0", "16", "5"⟩ true (by decide) (by decide)
     (by decide)⟩

/-- C7 counterexample: all fields integers and count = 0, but seed 5 with
modulus 2 makes the non-deriving validator fail with the seed-range rule
(the spec's SeedRangeError), not the count rule's RangeError. -/
theorem count_zero_counterexample :
    validateInputsFixed ⟨"5", "0", "0", "2", "0"⟩ true = .error .seedRangeError ∧
      ValError.seedRangeError ≠ ValError.countError ∧
      ValError.seedRangeError ≠ ValError.rangeError := by
  decide

/-- C7 amended: with integer fields and count = 0, the deriving validator
always fails with its combined negativity/count RangeError regardless of
the other fields; the non-deriving validator always fails too, but its
count rule fires only once modulus > 1 and 0 ≤ seed < modulus — otherwise
the modulus or seed-range rule reports first. -/
theorem count_zero_rejection :
    (∀ f : RawFieldsDerive,
      (jsIsFiniteInteger (jsStringToNumber f.seed) = true ∧
       jsIsFiniteInteger (jsStringToNumber f.multiplier) = true ∧
       jsIsFiniteInteger (jsStringToNumber f.increment) = true ∧
       jsIsFiniteInteger (jsStringToNumber f.count) = true) →
      jsToInt (jsStringToNumber f.count) = 0 →
      validateInputsDerive f = .error .rangeError) ∧
    (∀ (f : RawFieldsFixed) (b : Bool),
      (jsIsFiniteInteger (jsStringToNumber f.seed) = true ∧
       jsIsFiniteInteger (jsStringToNumber f.multiplier) = true ∧
       jsIsFiniteInteger (jsStringToNumber f.increment) = true ∧
       jsIsFiniteInteger (jsStringToNumber f.modulus) = true ∧
       jsIsFiniteInteger (jsStringToNumber f.count) = true) →
      jsToInt (jsStringToNumber f.count) = 0 →
      (∃ e, validateInputsFixed f b = .error e) ∧
      (1 < jsToInt (jsStringToNumber f.modulus) →
       0 ≤ jsToInt (jsStringToNumber f.seed) →
       jsToInt (jsStringToNumber f.seed) < jsToInt (jsStringToNumber f.modulus) →
       validateInputsFixed f b = .error .countError)) := by
  constructor
  · intro f hint hc
    simp only [validateInputsDerive]
    rw [if_neg (not_not_intro hint), if_pos (by omega)]
  · intro f b hint hc
    constructor
    · simp only [validateInputsFixed]
      rw [if_neg (not_not_intro hint)]
      by_cases hm : jsToInt (jsStringToNumber f.modulus) ≤ 1
      · rw [if_pos hm]
        exact ⟨_, rfl⟩
      · rw [if_neg hm]
        by_cases hs : jsToInt (jsStringToNumber f.seed) < 0 ∨
            jsToInt (jsStringToNumber f.seed) ≥ jsToInt (jsStringToNumber f.modulus)
        · rw [if_pos hs]
          exact ⟨_, rfl⟩
        · rw [if_neg hs, if_pos (by omega)]
          exact ⟨_, rfl⟩
    · intro hm hs0 hs1
      simp only [validateInputsFixed]
      rw [if_neg (not_not_intro hint), if_neg (by omega), if_neg (by omega),
        if_pos (by omega)]

/-- Witness for C7 amended: count "0" under each variant. -/
theorem count_zero_rejection_witness :
    validateInputsDerive ⟨"0", "0", "0", "0"⟩ = .error .rangeError ∧
      validateInputsFixed ⟨"1", "0", "0", "16", "0"⟩ true = .error .countError :=
  ⟨count_zero_rejection.1 ⟨"0", "0", "0", "0"⟩ (by decide) (by decide),
   (count_zero_rejection.2 ⟨"1", "0", "0", "16", "0"⟩ true (by decide) (by decide)).2
     (by decide) (by decide) (by decide)⟩

/-- C8 counterexample: declining the confirmation for count = 150 does not
leave the displayed state exactly as it was before the submission: the
error region, blanked unconditionally at the start of `handleSubmit`,
loses its previously displayed message. -/
theorem cancellation_counterexample :
    handleSubmitFixed ⟨"1", "5", "3", "16", "150"⟩ false 600 400
        ⟨"old error", [⟨1, 1/16⟩], [⟨40, 20⟩]⟩ ≠
      ⟨"old error", [⟨1, 1/16⟩], [⟨40, 20⟩]⟩ := by
  decide

/-- C8 amended: with otherwise-valid fields and count > 100, declining the
confirmation makes validation abort with the cancellation outcome before
any generation, and the handler then populates no error message and leaves
results and plot untouched — but the error region, blanked at the start of
every submission, does not recover a previously displayed message. -/
theorem user_cancellation_behaviour :
    (∀ f : RawFieldsFixed,
      (jsIsFiniteInteger (jsStringToNumber f.seed) = true ∧
       jsIsFiniteInteger (jsStringToNumber f.multiplier) = true ∧
       jsIsFiniteInteger (jsStringToNumber f.increment) = true ∧
       jsIsFiniteInteger (jsStringToNumber f.modulus) = true ∧
       jsIsFiniteInteger (jsStringToNumber f.count) = true) →
      1 < jsToInt (jsStringToNumber f.modulus) →
      0 ≤ jsToInt (jsStringToNumber f.seed) →
      jsToInt (jsStringToNumber f.seed) < jsToInt (jsStringToNumber f.modulus) →
      100 < jsToInt (jsStringToNumber f.count) →
      validateInputsFixed f false = .error .userCancelled) ∧
    (∀ (f : RawFieldsFixed) (cw ch : ℚ) (st : DisplayState),
      validateInputsFixed f false = .error .userCancelled →
      handleSubmitFixed f false cw ch st = ⟨"", st.results, st.plotPoints⟩) := by
  constructor
  · intro f hint hm hs0 hs1 hc
    simp only [validateInputsFixed]
    rw [if_neg (not_not_intro hint), if_neg (by omega), if_neg (by omega),
      if_neg (by omega), if_pos ⟨by omega, by simp⟩]
  · intro f cw ch st h
    simp only [handleSubmitFixed, h]

/-- Witness for C8 amended at count "150" with a previously displayed
error message, one result and one plotted point. -/
theorem user_cancellation_witness :
    validateInputsFixed ⟨"1", "5", "3", "16", "150"⟩ false = .error .userCancelled ∧
      handleSubmitFixed ⟨"1", "5", "3", "16", "150"⟩ false 600 400
          ⟨"old error", [⟨1, 1/16⟩], [⟨40, 20⟩]⟩ =
        ⟨"", [⟨1, 1/16⟩], [⟨40, 20⟩]⟩ :=
  ⟨user_cancellation_behaviour.1 ⟨"1", "5", "3", "16", "150"⟩ (by decide) (by decide)
     (by decide) (by decide) (by decide),
   user_cancellation_behaviour.2 ⟨"1", "5", "3", "16", "150"⟩ 600 400
     ⟨"old error", [⟨1, 1/16⟩], [⟨40, 20⟩]⟩ (by decide)⟩

/-- C9 counterexample: the deriving validator accepts multiplier
9007199254740994 = 2^53 + 2 (fields seed "3", increment "0", count "5",
derived modulus 8), but the double-precision evaluation of generate then
yields [0, 0, 0, 0, 0] where exact integer arithmetic yields
[6, 4, 0, 0, 0]: the very first product 3 * (2^53 + 2) already rounds. -/
theorem double_rounding_counterexample :
    validateInputsDerive ⟨"3", "9007199254740994", "0", "5"⟩ =
        .ok ⟨3, 9007199254740994, 0, 8, 5⟩ ∧
      jsGenerate 9007199254740994 0 8 3 5 = [0, 0, 0, 0, 0] ∧
      natGenerate 9007199254740994 0 8 3 5 = [6, 4, 0, 0, 0] ∧
      jsGenerate 9007199254740994 0 8 3 5 ≠ natGenerate 9007199254740994 0 8 3 5 := by
  decide

theorem doubleRound_eq_of_le (n : ℕ) (h : n ≤ 2 ^ 53) : doubleRound n = n := by
  unfold doubleRound
  rw [if_pos h]

theorem jsStep_eq_natStep (a c m x : ℕ) (h : a * x + c ≤ 2 ^ 53) :
    jsStep a c m x = natStep a c m x := by
  unfold jsStep natStep
  rw [doubleRound_eq_of_le (a * x) (by omega), doubleRound_eq_of_le (a * x + c) h]

theorem jsGenerateAux_eq_natGenerateAux (a c m : ℕ) (hm : 0 < m)
    (hb : a * (m - 1) + c ≤ 2 ^ 53) :
    ∀ (n cur : ℕ), cur < m →
      jsGenerateAux a c m cur n = natGenerateAux a c m cur n := by
  intro n
  induction n with
  | zero => intro cur _; rfl
  | succ n ih =>
    intro cur hcur
    have hx : a * cur + c ≤ 2 ^ 53 := by
      have hmono : a * cur ≤ a * (m - 1) := Nat.mul_le_mul_left a (by omega)
      omega
    have hstep := jsStep_eq_natStep a c m cur hx
    have hlt : natStep a c m cur < m := by
      unfold natStep
      exact Nat.mod_lt _ hm
    simp only [jsGenerateAux, natGenerateAux, hstep]
    rw [ih _ hlt]

/-- C9 amended: generator arithmetic is exact — each emitted raw value is
the mathematically exact (multiplier * previous + increment) mod modulus —
only under a magnitude bound the validator does not enforce: whenever every
intermediate value multiplier * x + increment (for states x < modulus)
stays within the doubles' exact-integer range 2^53, the double-precision
evaluation agrees with the exact recurrence for every count. -/
theorem jsGenerate_exact (a c m s n : ℕ) (hm : 0 < m) (hs : s < m)
    (hb : a * (m - 1) + c ≤ 2 ^ 53) :
    jsGenerate a c m s n = natGenerate a c m s n :=
  jsGenerateAux_eq_natGenerateAux a c m hm hb n s hs

/-- Witness for C9 amended at `a=5, c=3, m=16, s=1, n=5`. -/
theorem jsGenerate_exact_witness :
    jsGenerate 5 3 16 1 5 = natGenerate 5 3 16 1 5 :=
  jsGenerate_exact 5 3 16 1 5 (by decide) (by decide) (by decide)

end LCGSpec
